import Mathlib

/-!
Verification of the vigil log-watcher against its specification.

This file gives a shallow embedding, in Lean 4, of the deduplication and
issue-lifecycle core of the repository:

* `loki.LogEntry` and `LogEntry.IsError` (loki client);
* `normalizeEndpoint`, `GenerateBugID` (fingerprint generator, including a
  full executable SHA-256);
* `generateTitle`, `generateBody`, `generateComment` (document renderer);
* `processEntry` / `createNewIssue` / `updateExistingIssue` and the entry
  loop of `poll` (issue lifecycle engine and poll loop), embedded against
  explicit collaborator oracles that record the calls made.

Machine integers are modelled as `Int`/`Nat` (with explicit `% 2 ^ 32`
where 32-bit overflow matters, in the SHA-256 compression function);
fallible collaborator calls return `Except String`.  Calls performed
against the tracker and the notifiers are recorded in a trace so that the
call-counting properties of the specification can be stated.
-/

/-! ## Data model: log entries (package loki) -/

/-- Model of a Go `time.Time` value: the nanosecond instant together with
its `Format(time.RFC3339)` rendering.  The rendering is carried as data
because Go formats times in the process-local timezone, which is not a
function of the instant alone. -/
structure GoTime where
  unixNano : Int
  rfc3339 : String
deriving DecidableEq, Repr

/-- `loki.SourceInfo`: information about the log source location. -/
structure SourceInfo where
  Function : String
  File : String
  Line : Int
deriving DecidableEq, Repr

/-- A JSON value, modelling the `map[string]interface{}` payload a log
entry is parsed from.  Numbers are modelled as `Int` (the numeric fields
the core logic reads are integral; no verified property inspects the
rendered JSON dump).  Object fields are carried in rendering order; the
Go encoder sorts map keys, so a faithful instance carries them sorted. -/
inductive JsonVal where
  | null
  | bool (b : Bool)
  | num (n : Int)
  | str (s : String)
  | arr (xs : List JsonVal)
  | obj (fields : List (String × JsonVal))
deriving Repr

/-- `loki.LogEntry`: a parsed log entry.  Field defaults are the Go zero
values.  `ElapsedMs` is a `float64` in the source; it is read by no core
logic, and is modelled as `Int`. -/
structure LogEntry where
  Timestamp : GoTime := ⟨0, ""⟩
  Raw : String := ""
  Parsed : List (String × JsonVal) := []
  Level : String := ""
  Message : String := ""
  Method : String := ""
  Action : String := ""
  Status : Int := 0
  RequestID : String := ""
  TraceID : String := ""
  UserID : String := ""
  BugID : String := ""
  Source : SourceInfo := ⟨"", "", 0⟩
  ElapsedMs : Int := 0

/-- `(*LogEntry).IsError` from the loki client: a log entry represents an
error when its level is exactly `"ERROR"` or `"error"`, or its status
code is at least 500. -/
def LogEntry.IsError (e : LogEntry) : Bool :=
  if e.Level = "ERROR" ∨ e.Level = "error" then true
  else if 500 ≤ e.Status then true
  else false

/-- ASCII lowercasing, used to state the spec's notion of
"case-insensitively equals". -/
def asciiLower (s : String) : String := String.mk (s.data.map Char.toLower)

/-! ## Endpoint normalization (`normalizeEndpoint`)

The source applies two Go regex replacements in order:
`/\d+` ↦ `/:id`, then a slash followed by the canonical lowercase UUID
shape (8-4-4-4-12 hex groups) ↦ `/:uuid`.  Each pass is embedded as a
left-to-right scanner replacing every non-overlapping leftmost match,
which is exactly `regexp.ReplaceAllString` semantics for these
patterns. -/

/-- Whether the head of a character list is an ASCII digit (used for the
lookahead of the `/\d+` pass). -/
def headDigit : List Char → Bool
  | [] => false
  | d :: _ => d.isDigit

/-- The `/\d+` ↦ `/:id` replacement pass.  State `true` means the scanner
is inside the digit run of a match that has already been rewritten, so
digits are dropped. -/
def replNumGo : Bool → List Char → List Char
  | _, [] => []
  | skip, c :: rest =>
    if skip && c.isDigit then replNumGo true rest
    else if c = '/' && headDigit rest then '/' :: ':' :: 'i' :: 'd' :: replNumGo true rest
    else c :: replNumGo false rest

/-- One character class of the UUID regex: a lowercase hex digit or a
literal hyphen. -/
inductive PatChar where
  | hex
  | dash
deriving DecidableEq, Repr

/-- Whether a character matches a pattern character class
(`[0-9a-f]` or `-`). -/
def patOk : PatChar → Char → Bool
  | .hex, c => c.isDigit || ('a' ≤ c && c ≤ 'f')
  | .dash, c => c = '-'

/-- Match a fixed character-class pattern against the front of a list,
returning the remainder on success. -/
def matchPat : List PatChar → List Char → Option (List Char)
  | [], l => some l
  | _ :: _, [] => none
  | p :: ps, c :: l => if patOk p c then matchPat ps l else none

/-- The canonical UUID shape `[0-9a-f]{8}-[0-9a-f]{4}-[0-9a-f]{4}-[0-9a-f]{4}-[0-9a-f]{12}`
as a character-class pattern (36 classes). -/
def uuidPat : List PatChar :=
  List.replicate 8 .hex ++ [.dash] ++ List.replicate 4 .hex ++ [.dash] ++
  List.replicate 4 .hex ++ [.dash] ++ List.replicate 4 .hex ++ [.dash] ++ List.replicate 12 .hex

/-- The `/uuid` ↦ `/:uuid` replacement pass.  State `n` means `n`
characters of an already-rewritten UUID match remain to be dropped. -/
def replUuidGo : Nat → List Char → List Char
  | _, [] => []
  | n+1, _ :: rest => replUuidGo n rest
  | 0, c :: rest =>
    if c = '/' && (matchPat uuidPat rest).isSome then
      '/' :: ':' :: 'u' :: 'u' :: 'i' :: 'd' :: replUuidGo 36 rest
    else c :: replUuidGo 0 rest

/-- `normalizeEndpoint` from the processor: numeric-ID pass first, then
UUID pass. -/
def normalizeEndpoint (endpoint : String) : String :=
  String.mk (replUuidGo 0 (replNumGo false endpoint.data))

/-! ## SHA-256 (crypto/sha256) and the fingerprint generator -/

/-- `2 ^ 32`, the modulus of 32-bit word arithmetic. -/
def w32 : Nat := 4294967296

/-- 32-bit right rotation. -/
def rotr32 (n x : Nat) : Nat := ((x >>> n) ||| (x <<< (32 - n))) % w32

/-- SHA-256 small sigma 0. -/
def shaS0 (x : Nat) : Nat := rotr32 7 x ^^^ rotr32 18 x ^^^ (x >>> 3)

/-- SHA-256 small sigma 1. -/
def shaS1 (x : Nat) : Nat := rotr32 17 x ^^^ rotr32 19 x ^^^ (x >>> 10)

/-- SHA-256 big sigma 0. -/
def shaE0 (x : Nat) : Nat := rotr32 2 x ^^^ rotr32 13 x ^^^ rotr32 22 x

/-- SHA-256 big sigma 1. -/
def shaE1 (x : Nat) : Nat := rotr32 6 x ^^^ rotr32 11 x ^^^ rotr32 25 x

/-- The 64 SHA-256 round constants (the fractional parts of the cube
roots of the first 64 primes, as decimal 32-bit words). -/
def shaK : List Nat :=
  [1116352408, 1899447441, 3049323471, 3921009573, 961987163, 1508970993,
   2453635748, 2870763221, 3624381080, 310598401, 607225278, 1426881987,
   1925078388, 2162078206, 2614888103, 3248222580, 3835390401, 4022224774,
   264347078, 604807628, 770255983, 1249150122, 1555081692, 1996064986,
   2554220882, 2821834349, 2952996808, 3210313671, 3336571891, 3584528711,
   113926993, 338241895, 666307205, 773529912, 1294757372, 1396182291,
   1695183700, 1986661051, 2177026350, 2456956037, 2730485921, 2820302411,
   3259730800, 3345764771, 3516065817, 3600352804, 4094571909, 275423344,
   430227734, 506948616, 659060556, 883997877, 958139571, 1322822218,
   1537002063, 1747873779, 1955562222, 2024104815, 2227730452, 2361852424,
   2428436474, 2756734187, 3204031479, 3329325298]

/-- The SHA-256 initial hash state (decimal 32-bit words). -/
def shaH0 : List Nat :=
  [1779033703, 3144134277, 1013904242, 2773480762,
   1359893119, 2600822924, 528734635, 1541459225]

/-- Big-endian byte decomposition of a number into a fixed width. -/
def toBytesBE : Nat → Nat → List Nat
  | 0, _ => []
  | n+1, v => toBytesBE n (v / 256) ++ [v % 256]

/-- SHA-256 message padding: a `0x80` byte, zeros to 56 mod 64, then the
bit length as a 64-bit big-endian integer. -/
def shaPad (msg : List Nat) : List Nat :=
  let zeros := (64 + 55 - (msg.length % 64)) % 64
  msg ++ [128] ++ List.replicate zeros 0 ++ toBytesBE 8 (8 * msg.length)

/-- Group a byte list into big-endian 32-bit words. -/
def bytesToWords : List Nat → List Nat
  | a :: b :: c :: d :: rest => (((a * 256 + b) * 256 + c) * 256 + d) :: bytesToWords rest
  | _ => []

/-- Message-schedule extension, operating on the reversed word list so
that `w[i-2]`, `w[i-7]`, `w[i-15]`, `w[i-16]` are at fixed offsets. -/
def shaExtend : Nat → List Nat → List Nat
  | 0, acc => acc
  | n+1, acc =>
    let v := (acc.getD 15 0 + shaS0 (acc.getD 14 0) + acc.getD 6 0 + shaS1 (acc.getD 1 0)) % w32
    shaExtend n (v :: acc)

/-- Extend 16 words to the 64-word message schedule. -/
def shaSchedule (ws : List Nat) : List Nat := (shaExtend 48 ws.reverse).reverse

/-- One round of the SHA-256 compression function on the 8-word working
state (`kw` pairs the round constant with the schedule word). -/
def shaStep (st : List Nat) (kw : Nat × Nat) : List Nat :=
  match st with
  | [a, b, c, d, e, f, g, h] =>
    let t1 := (h + shaE1 e + ((e &&& f) ^^^ ((e ^^^ 4294967295) &&& g)) + kw.1 + kw.2) % w32
    let t2 := (shaE0 a + ((a &&& b) ^^^ (a &&& c) ^^^ (b &&& c))) % w32
    [(t1 + t2) % w32, a, b, c, (d + t1) % w32, e, f, g]
  | _ => st

/-- Process one 64-byte chunk against the intermediate hash state. -/
def shaChunk (hs : List Nat) (chunk : List Nat) : List Nat :=
  let st := (shaK.zip (shaSchedule (bytesToWords chunk))).foldl shaStep hs
  (hs.zip st).map (fun p => (p.1 + p.2) % w32)

/-- Split a (padded) byte list into 64-byte chunks. -/
def chunks64 (l : List Nat) : List (List Nat) :=
  if h : l = [] then [] else l.take 64 :: chunks64 (l.drop 64)
termination_by l.length
decreasing_by
  have hp : 0 < l.length := List.length_pos.mpr h
  simp only [List.length_drop]
  omega

/-- SHA-256 of a byte sequence, as its 32-byte digest. -/
def sha256 (msg : List Nat) : List Nat :=
  (((chunks64 (shaPad msg)).foldl shaChunk shaH0).map (toBytesBE 4)).flatten

/-- The hex digit characters, as used by `encoding/hex`. -/
def hexDigit (n : Nat) : Char := "0123456789abcdef".data.getD n '0'

/-- `hex.EncodeToString`: lowercase hex encoding of a byte sequence. -/
def hexEncode (bytes : List Nat) : String :=
  String.mk ((bytes.map (fun b => [hexDigit (b / 16), hexDigit (b % 16)])).flatten)

/-- UTF-8 encoding of one character. -/
def charUtf8 (c : Char) : List Nat :=
  let n := c.toNat
  if n < 128 then [n]
  else if n < 2048 then [192 + n / 64, 128 + n % 64]
  else if n < 65536 then [224 + n / 4096, 128 + n / 64 % 64, 128 + n % 64]
  else [240 + n / 262144, 128 + n / 4096 % 64, 128 + n / 64 % 64, 128 + n % 64]

/-- The UTF-8 bytes of a string (Go strings are byte slices; `[]byte(s)`
of a Go string holding text is its UTF-8 encoding). -/
def utf8Bytes (s : String) : List Nat := (s.data.map charUtf8).flatten

/-- `GenerateBugID` from the processor: an explicit non-empty `bugId`
from the log is returned verbatim; otherwise the fingerprint is the
first 8 bytes, hex-encoded, of the SHA-256 of
`method|normalizedEndpoint|status|sourceFunction`. -/
def GenerateBugID (entry : LogEntry) : String :=
  if entry.BugID ≠ "" then entry.BugID
  else
    let endpoint := normalizeEndpoint entry.Action
    let data := entry.Method ++ "|" ++ endpoint ++ "|" ++ toString entry.Status ++ "|" ++
      entry.Source.Function
    hexEncode ((sha256 (utf8Bytes data)).take 8)

/-! ## Document renderer -/

/-- `strings.Join`: concatenate the parts with the separator between
consecutive parts. -/
def goJoin (sep : String) : List String → String
  | [] => ""
  | [x] => x
  | x :: y :: rest => x ++ sep ++ goJoin sep (y :: rest)

/-- Whether a label string is one of the two severity labels the engine
can attach. -/
def isSeverityLabel (s : String) : Bool := s = "severity:critical" || s = "severity:error"

/-- `generateTitle`: bracketed severity tag (numeric status if ≥ 500,
else the uppercased level if present), then `METHOD normalized-endpoint`
if both are present, then the message if non-empty and under 80 bytes;
joined with `" - "`, with `"Unknown error"` as the empty fallback. -/
def generateTitle (entry : LogEntry) : String :=
  let parts : List String :=
    (if 500 ≤ entry.Status then ["[" ++ toString entry.Status ++ "]"]
     else if entry.Level ≠ "" then ["[" ++ entry.Level.toUpper ++ "]"]
     else [])
    ++ (if entry.Method ≠ "" ∧ entry.Action ≠ "" then
          [entry.Method ++ " " ++ normalizeEndpoint entry.Action]
        else [])
    ++ (if entry.Message ≠ "" ∧ entry.Message.utf8ByteSize < 80 then [entry.Message] else [])
  if parts = [] then "Unknown error" else goJoin " - " parts

/-- Indentation prefix used by the JSON renderer (`MarshalIndent` with a
two-space indent). -/
def indentStr (d : Nat) : String := String.mk (List.replicate (2 * d) ' ')

/-- JSON escaping of one character, in the style of `encoding/json`
(which also escapes `<`, `>` and `&`). -/
def jsonQuoteChar (c : Char) : List Char :=
  if c = '"' then ['\\', '"']
  else if c = '\\' then ['\\', '\\']
  else if c = '\n' then ['\\', 'n']
  else if c = '\r' then ['\\', 'r']
  else if c = '\t' then ['\\', 't']
  else if c = '<' then '\\' :: 'u' :: '0' :: '0' :: '3' :: ['c']
  else if c = '>' then '\\' :: 'u' :: '0' :: '0' :: '3' :: ['e']
  else if c = '&' then '\\' :: 'u' :: '0' :: '0' :: '2' :: ['6']
  else if c.toNat < 32 then
    '\\' :: 'u' :: '0' :: '0' :: hexDigit (c.toNat / 16) :: [hexDigit (c.toNat % 16)]
  else [c]

/-- A JSON string literal with quotes and escapes. -/
def jsonQuote (s : String) : String :=
  "\"" ++ String.mk ((s.data.map jsonQuoteChar).flatten) ++ "\""

mutual

/-- Render a JSON value as `json.MarshalIndent(v, "", "  ")` does, at
nesting depth `d`. -/
def jsonRender (d : Nat) : JsonVal → String
  | .null => "null"
  | .bool b => if b then "true" else "false"
  | .num n => toString n
  | .str s => jsonQuote s
  | .arr [] => "[]"
  | .arr (x :: xs) => "[\n" ++ jsonRenderItems (d+1) (x :: xs) ++ "\n" ++ indentStr d ++ "]"
  | .obj [] => "\x7b\x7d"
  | .obj (f :: fs) => "\x7b\n" ++ jsonRenderFields (d+1) (f :: fs) ++ "\n" ++ indentStr d ++ "\x7d"

/-- Render the comma-separated items of a JSON array. -/
def jsonRenderItems (d : Nat) : List JsonVal → String
  | [] => ""
  | [x] => indentStr d ++ jsonRender d x
  | x :: y :: xs => indentStr d ++ jsonRender d x ++ ",\n" ++ jsonRenderItems d (y :: xs)

/-- Render the comma-separated fields of a JSON object. -/
def jsonRenderFields (d : Nat) : List (String × JsonVal) → String
  | [] => ""
  | [f] => indentStr d ++ jsonQuote f.1 ++ ": " ++ jsonRender d f.2
  | f :: g :: fs =>
    indentStr d ++ jsonQuote f.1 ++ ": " ++ jsonRender d f.2 ++ ",\n" ++ jsonRenderFields d (g :: fs)

end

/-- `generateBody`: the fixed-structure Markdown issue body.  Each
optional line is omitted when its field is empty, the parsed payload is
pretty-printed as JSON, and the footer stamps the fingerprint. -/
def generateBody (entry : LogEntry) (bugID : String) : String :=
  "## Error Details\n\n"
  ++ (if entry.Message ≠ "" then "**Message:** " ++ entry.Message ++ "\n\n" else "")
  ++ (if entry.Source.Function ≠ "" then "**Source:** `" ++ entry.Source.Function ++ "`\n" else "")
  ++ (if entry.Source.File ≠ "" then
        "**File:** `" ++ entry.Source.File ++ ":" ++ toString entry.Source.Line ++ "`\n"
      else "")
  ++ "\n## Request Info\n\n"
  ++ (if entry.Method ≠ "" then "- **Method:** " ++ entry.Method ++ "\n" else "")
  ++ (if entry.Action ≠ "" then "- **Endpoint:** " ++ entry.Action ++ "\n" else "")
  ++ (if 0 < entry.Status then "- **Status Code:** " ++ toString entry.Status ++ "\n" else "")
  ++ (if entry.RequestID ≠ "" then "- **Request ID:** `" ++ entry.RequestID ++ "`\n" else "")
  ++ (if entry.TraceID ≠ "" then "- **Trace ID:** `" ++ entry.TraceID ++ "`\n" else "")
  ++ (if entry.UserID ≠ "" then "- **User ID:** " ++ entry.UserID ++ "\n" else "")
  ++ "\n## Sample Log\n\n```json\n"
  ++ jsonRender 0 (.obj entry.Parsed)
  ++ "\n```\n"
  ++ "\n---\n"
  ++ "*Bug ID: `" ++ bugID ++ "`*\n"
  ++ "*Auto-generated by issue-tracker*\n"

/-- `generateComment`: the occurrence comment appended on a recurrence,
stamped with the entry timestamp, the optional correlation ids, and the
running occurrence count. -/
def generateComment (entry : LogEntry) (occurrences : Int) : String :=
  "**Occurred again** at `" ++ entry.Timestamp.rfc3339 ++ "`\n\n"
  ++ (if entry.RequestID ≠ "" then "- Request ID: `" ++ entry.RequestID ++ "`\n" else "")
  ++ (if entry.TraceID ≠ "" then "- Trace ID: `" ++ entry.TraceID ++ "`\n" else "")
  ++ (if entry.UserID ≠ "" then "- User ID: " ++ entry.UserID ++ "\n" else "")
  ++ "- Total occurrences: **" ++ toString occurrences ++ "**\n"

/-! ## Issue lifecycle engine

The tracker and notifier collaborators are modelled as oracles fixing
the result of each call the engine can make while processing one entry;
the embedding returns the processing result together with the ordered
trace of collaborator calls, so that "exactly one ... call" properties
can be stated. -/

/-- `gitea.Issue`, restricted to the fields the engine reads. -/
structure Issue where
  Number : Int
  Title : String
  State : String
  Comments : Int
deriving DecidableEq, Repr

/-- `notifier.IssueInfo`: the payload of a notification event.  Field
defaults are the Go zero values (the source populates only a subset per
event kind). -/
structure IssueInfo where
  Number : Int := 0
  Title : String := ""
  BugID : String := ""
  Endpoint : String := ""
  HTTPMethod : String := ""
  StatusCode : Int := 0
  FirstSeen : GoTime := ⟨0, ""⟩
  Occurrences : Int := 0
deriving DecidableEq, Repr

/-- One collaborator call made by the engine, in trace order. -/
inductive Call where
  | searchIssues (label : String)
  | ensureLabel (name color : String)
  | createIssue (title body : String) (labels : List String)
  | addComment (issueNumber : Int) (text : String)
  | reopenIssue (issueNumber : Int)
  | notifyNew (info : IssueInfo)
  | notifyReopened (info : IssueInfo)
deriving DecidableEq, Repr

/-- Trace predicate: is the call an add-comment call? -/
def Call.isAddComment : Call → Bool
  | .addComment _ _ => true
  | _ => false

/-- Trace predicate: is the call a reopen call? -/
def Call.isReopen : Call → Bool
  | .reopenIssue _ => true
  | _ => false

/-- Trace predicate: is the call a create-issue call? -/
def Call.isCreate : Call → Bool
  | .createIssue _ _ _ => true
  | _ => false

/-- Trace predicate: is the call a reopened-notification emission? -/
def Call.isNotifyReopened : Call → Bool
  | .notifyReopened _ => true
  | _ => false

/-- Trace predicate: is the call a new-issue-notification emission? -/
def Call.isNotifyNew : Call → Bool
  | .notifyNew _ => true
  | _ => false

/-- Result of processing one entry, per the specification's outcome
vocabulary: the engine created a new issue, appended an occurrence to an
open issue, or appended and reopened a closed issue. -/
inductive Outcome where
  | Created (issueNumber : Int)
  | Updated (issueNumber : Int) (occurrences : Int)
  | Reopened (issueNumber : Int) (occurrences : Int)
deriving DecidableEq, Repr

/-- Oracle fixing the outcome of each tracker call the engine may make
while processing one entry. -/
structure TrackerOracle where
  searchRes : Except String (List Issue) := .ok []
  ensureLabelRes : Except String Unit := .ok ()
  createRes : Except String Issue := .ok ⟨0, "", "open", 0⟩
  addCommentRes : Except String Unit := .ok ()
  reopenRes : Except String Unit := .ok ()

/-- Oracle fixing the outcome of one notifier's calls. -/
structure NotifOracle where
  newRes : Except String Unit := .ok ()
  reopenedRes : Except String Unit := .ok ()

/-- `(*Processor).createNewIssue`: render title and body, assemble the
label set (severity by status code), ensure the bugid label exists (a
failure is only logged), create the issue, then notify every notifier
(failures only logged). -/
def createNewIssue (o : TrackerOracle) (ns : List NotifOracle) (entry : LogEntry)
    (bugID bugIDLabel : String) : Except String Outcome × List Call :=
  let title := generateTitle entry
  let body := generateBody entry bugID
  let labels := ["auto-generated", bugIDLabel]
    ++ (if 500 ≤ entry.Status then ["severity:critical"] else ["severity:error"])
  let pre := [Call.ensureLabel bugIDLabel "0366d6", Call.createIssue title body labels]
  match o.createRes with
  | .error e => (.error ("failed to create issue: " ++ e), pre)
  | .ok issue =>
    let info : IssueInfo :=
      { Number := issue.Number, Title := title, BugID := bugID, Endpoint := entry.Action,
        HTTPMethod := entry.Method, StatusCode := entry.Status, FirstSeen := entry.Timestamp }
    (.ok (.Created issue.Number), pre ++ ns.map (fun _ => Call.notifyNew info))

/-- `(*Processor).updateExistingIssue`: compute the occurrence number as
comment count + 2, append the rendered comment (a failure aborts), and
if the issue is closed attempt a best-effort reopen; on a successful
reopen every notifier is told, with the occurrence count. -/
def updateExistingIssue (o : TrackerOracle) (ns : List NotifOracle) (existing : Issue)
    (entry : LogEntry) : Except String Outcome × List Call :=
  let occurrences := existing.Comments + 2
  let comment := generateComment entry occurrences
  match o.addCommentRes with
  | .error e => (.error ("failed to add comment: " ++ e), [.addComment existing.Number comment])
  | .ok _ =>
    if existing.State = "closed" then
      match o.reopenRes with
      | .error _ =>
        (.ok (.Updated existing.Number occurrences),
         [.addComment existing.Number comment, .reopenIssue existing.Number])
      | .ok _ =>
        let info : IssueInfo :=
          { Number := existing.Number, Title := existing.Title, Occurrences := occurrences }
        (.ok (.Reopened existing.Number occurrences),
         [.addComment existing.Number comment, .reopenIssue existing.Number]
           ++ ns.map (fun _ => Call.notifyReopened info))
    else (.ok (.Updated existing.Number occurrences), [.addComment existing.Number comment])

/-- `(*Processor).processEntry`: fingerprint the entry, search the
tracker by the `bugid:` label, then create a new issue (zero results) or
update the first existing issue. -/
def processEntry (o : TrackerOracle) (ns : List NotifOracle) (entry : LogEntry) :
    Except String Outcome × List Call :=
  let bugID := GenerateBugID entry
  let bugIDLabel := "bugid:" ++ bugID
  match o.searchRes with
  | .error e => (.error ("failed to search issues: " ++ e), [.searchIssues bugIDLabel])
  | .ok issues =>
    match issues with
    | [] =>
      let r := createNewIssue o ns entry bugID bugIDLabel
      (r.1, .searchIssues bugIDLabel :: r.2)
    | existing :: _ =>
      let r := updateExistingIssue o ns existing entry
      (r.1, .searchIssues bugIDLabel :: r.2)

/-! ## Poll loop -/

/-- The entry loop of `(*Processor).poll` (source lines filtering with
`IsError` and logging per-entry failures without stopping): process each
qualifying entry in order; `oracleFor i` fixes the tracker responses for
the `i`-th qualifying entry. -/
def processBatch (oracleFor : Nat → TrackerOracle) (ns : List NotifOracle) :
    Nat → List LogEntry → List (Except String Outcome × List Call)
  | _, [] => []
  | i, e :: rest =>
    if e.IsError then processEntry (oracleFor i) ns e :: processBatch oracleFor ns (i+1) rest
    else processBatch oracleFor ns i rest

/-- The processor state read and written by `poll`: the poll watermark
(`lastPoll`), as a nanosecond timestamp. -/
structure PollState where
  lastPoll : Int
deriving DecidableEq, Repr

/-- One `(*Processor).poll` cycle: query the log source for the window
ending at `now`; on failure return without touching the watermark; on
success advance the watermark to `now` and process the qualifying
entries. -/
def poll (st : PollState) (now : Int) (queryRes : Except String (List LogEntry))
    (oracleFor : Nat → TrackerOracle) (ns : List NotifOracle) :
    PollState × List (Except String Outcome × List Call) :=
  match queryRes with
  | .error _ => (st, [])
  | .ok entries => ({ lastPoll := now }, processBatch oracleFor ns 0 entries)

/-! ## Verification predicates

Scanner invariants used in the proofs about `normalizeEndpoint`. -/

/-- No occurrence of a slash immediately followed by an ASCII digit in
the character list — i.e. no match of the `/\d+` regex. -/
def noSD : List Char → Bool
  | [] => true
  | c :: rest => !(c = '/' && headDigit rest) && noSD rest

/-- No occurrence of a slash immediately followed by the canonical UUID
shape — i.e. no match of the UUID regex. -/
def noSU : List Char → Bool
  | [] => true
  | c :: rest => !(c = '/' && (matchPat uuidPat rest).isSome) && noSU rest

/-! ## Theorems -/

/-! ### Claim C1 -/

/-- Claim C1 counterexample: the entry with severity level `"Error"`
(mixed case) and status 0 does *not* qualify as an error under
`IsError`, although its level case-insensitively equals `"error"`; the
claim states that it qualifies. -/
theorem c1_counterexample :
    asciiLower ({ Level := "Error", Status := 0 : LogEntry }).Level = "error" ∧
    ({ Level := "Error", Status := 0 : LogEntry }).IsError = false := by
  constructor
  · decide
  · decide

/-- Claim C1 (amended): a log entry qualifies as an error iff its
severity level is exactly `"ERROR"` or exactly `"error"`, or its numeric
status code is at least 500; other case variants such as `"Error"` do
not qualify on their own.  In particular an entry with level unset and
status 499 does not qualify, and one with level `"ERROR"` and status 0
does. -/
theorem c1_amended :
    (∀ e : LogEntry,
      e.IsError = true ↔ (e.Level = "ERROR" ∨ e.Level = "error" ∨ 500 ≤ e.Status)) ∧
    ({ Level := "", Status := 499 : LogEntry }).IsError = false ∧
    ({ Level := "ERROR", Status := 0 : LogEntry }).IsError = true ∧
    ({ Level := "Error", Status := 0 : LogEntry }).IsError = false := by
  refine ⟨fun e => ?_, by decide, by decide, by decide⟩
  unfold LogEntry.IsError
  by_cases h1 : e.Level = "ERROR" ∨ e.Level = "error"
  · simp only [if_pos h1]
    tauto
  · by_cases h2 : 500 ≤ e.Status
    · simp only [if_neg h1, if_pos h2]
      tauto
    · simp only [if_neg h1, if_neg h2]
      constructor
      · intro h
        exact absurd h (by simp)
      · intro h
        tauto

/-! ### Claim C2: counterexample -/

/-- Claim C2 counterexample: the path segment `123abc` of
`/coffee/123abc` is not purely numeric, yet normalization rewrites its
leading digit run, producing `/coffee/:idabc`; the claim states that
such a segment is left byte-for-byte untouched. -/
theorem c2_counterexample :
    normalizeEndpoint "/coffee/123abc" = "/coffee/:idabc" ∧
    "/coffee/:idabc" ≠ "/coffee/123abc" := by
  constructor
  · decide
  · decide

/-! ### Normalization: scanner lemmas -/

/-- The numeric pass keeps a non-digit head non-digit. -/
theorem headDigit_replNumGo {l : List Char} (h : headDigit l = false) :
    headDigit (replNumGo false l) = false := by
  cases l with
  | nil => rfl
  | cons d r =>
    simp only [headDigit] at h
    rw [replNumGo, if_neg (by simp [h])]
    split
    · simp only [headDigit]
      decide
    · simpa [headDigit] using h


/-- `noSD` is closed under taking the tail. -/
theorem noSD_tail {c : Char} {l : List Char} (h : noSD (c :: l) = true) : noSD l = true := by
  simp only [noSD, Bool.and_eq_true] at h
  exact h.2


/-- The output of the numeric pass has no remaining `/digit` match. -/
theorem replNumGo_noSD : ∀ (s : Bool) (l : List Char), noSD (replNumGo s l) = true := by
  intro s l
  induction s, l using replNumGo.induct with
  | case1 _ => rfl
  | case2 skip c rest h ih =>
    rw [replNumGo, if_pos h]
    exact ih
  | case3 skip c rest h1 h2 ih =>
    rw [replNumGo, if_neg h1, if_pos h2]
    simp [noSD, headDigit, ih]
  | case4 skip c rest h1 h2 ih =>
    rw [replNumGo, if_neg h1, if_neg h2]
    simp only [noSD, Bool.and_eq_true, Bool.not_eq_true']
    refine ⟨?_, ih⟩
    by_cases hc : c = '/'
    · subst hc
      have hr : headDigit rest = false := by
        cases hE : headDigit rest with
        | false => rfl
        | true => exact absurd (by simp [hE]) h2
      simp [headDigit_replNumGo hr]
    · simp [hc]


/-- A list with no `/digit` match is a fixed point of the numeric pass. -/
theorem replNumGo_fixed : ∀ {l : List Char}, noSD l = true → replNumGo false l = l := by
  intro l
  induction l with
  | nil => intro _; rfl
  | cons c rest ih =>
    intro h
    have h2 := noSD_tail h
    simp only [noSD, Bool.and_eq_true, Bool.not_eq_true'] at h
    rw [replNumGo, if_neg (by simp), if_neg (by simp [h.1])]
    rw [ih h2]


/-- A slash matches no character class of the UUID pattern. -/
theorem patOk_slash (p : PatChar) : patOk p '/' = false := by
  cases p <;> decide


/-- A nonempty pattern never matches at a leading slash. -/
theorem matchPat_slash_head {ps : List PatChar} (hps : ps ≠ []) {X : List Char} :
    matchPat ps ('/' :: X) = none := by
  cases ps with
  | nil => exact absurd rfl hps
  | cons p ps' => rw [matchPat, if_neg (by simp [patOk_slash])]


/-- The UUID pattern never matches at a leading colon. -/
theorem matchPat_colon (X : List Char) : matchPat uuidPat (':' :: X) = none := by
  have hp : patOk .hex ':' = false := by decide
  rw [uuidPat]
  rw [show (List.replicate 8 PatChar.hex ++ [PatChar.dash] ++ List.replicate 4 PatChar.hex ++ [PatChar.dash] ++
      List.replicate 4 PatChar.hex ++ [PatChar.dash] ++ List.replicate 4 PatChar.hex ++ [PatChar.dash] ++
      List.replicate 12 PatChar.hex : List PatChar) = PatChar.hex :: (List.replicate 7 PatChar.hex ++ [PatChar.dash] ++ List.replicate 4 PatChar.hex ++ [PatChar.dash] ++
      List.replicate 4 PatChar.hex ++ [PatChar.dash] ++ List.replicate 4 PatChar.hex ++ [PatChar.dash] ++
      List.replicate 12 PatChar.hex) from by simp [List.replicate_succ]]
  rw [matchPat, if_neg (by simp [hp])]


/-- The UUID pass neither creates nor destroys a UUID match at the
front of the list. -/
theorem matchPat_isSome_replUuidGo :
    ∀ (l : List Char) (ps : List PatChar), ps ≠ [] →
      (matchPat ps (replUuidGo 0 l)).isSome = (matchPat ps l).isSome := by
  intro l
  induction l with
  | nil => intro ps _; rfl
  | cons c rest ih =>
    intro ps hps
    by_cases hg : (c = '/' && (matchPat uuidPat rest).isSome) = true
    · rw [replUuidGo, if_pos hg]
      have hc : c = '/' := by
        simp only [Bool.and_eq_true, decide_eq_true_eq] at hg
        exact hg.1
      subst hc
      rw [matchPat_slash_head hps, matchPat_slash_head hps]
    · rw [replUuidGo, if_neg hg]
      cases ps with
      | nil => exact absurd rfl hps
      | cons p ps' =>
        rw [matchPat, matchPat]
        by_cases hok : patOk p c = true
        · rw [if_pos hok, if_pos hok]
          cases ps' with
          | nil => rfl
          | cons q qs => exact ih (q :: qs) (by simp)
        · rw [if_neg hok, if_neg hok]


/-- `noSU` is closed under taking the tail. -/
theorem noSU_tail {c : Char} {l : List Char} (h : noSU (c :: l) = true) : noSU l = true := by
  simp only [noSU, Bool.and_eq_true] at h
  exact h.2


/-- The output of the UUID pass has no remaining UUID match. -/
theorem replUuidGo_noSU : ∀ (n : Nat) (l : List Char), noSU (replUuidGo n l) = true := by
  intro n l
  induction n, l using replUuidGo.induct with
  | case1 _ => simp [replUuidGo, noSU]
  | case2 n head rest ih =>
    rw [replUuidGo]
    exact ih
  | case3 c rest hg ih =>
    rw [replUuidGo, if_pos hg]
    simp only [noSU, Bool.and_eq_true, Bool.not_eq_true']
    refine ⟨by simp [matchPat_colon], ?_, ?_, ?_, ?_, ?_, ih⟩ <;> simp
  | case4 c rest hg ih =>
    rw [replUuidGo, if_neg hg]
    simp only [noSU, Bool.and_eq_true, Bool.not_eq_true']
    refine ⟨?_, ih⟩
    by_cases hc : c = '/'
    · subst hc
      have hnone : (matchPat uuidPat rest).isSome = false := by
        cases hE : (matchPat uuidPat rest).isSome with
        | false => rfl
        | true => exact absurd (by simp [hE]) hg
      simp [matchPat_isSome_replUuidGo rest uuidPat (by simp [uuidPat]), hnone]
    · simp [hc]


/-- A list with no UUID match is a fixed point of the UUID pass. -/
theorem replUuidGo_fixedU : ∀ {l : List Char}, noSU l = true → replUuidGo 0 l = l := by
  intro l
  induction l with
  | nil => intro _; rfl
  | cons c rest ih =>
    intro h
    have h2 := noSU_tail h
    simp only [noSU, Bool.and_eq_true, Bool.not_eq_true'] at h
    rw [replUuidGo, if_neg (by simp [h.1])]
    rw [ih h2]


/-- The UUID pass keeps a non-digit head non-digit. -/
theorem headDigit_replUuidGo {l : List Char} (h : headDigit l = false) :
    headDigit (replUuidGo 0 l) = false := by
  cases l with
  | nil => rfl
  | cons d r =>
    simp only [headDigit] at h
    rw [replUuidGo]
    split
    · simp only [headDigit]
      decide
    · simpa [headDigit] using h


/-- The UUID pass preserves the absence of `/digit` matches. -/
theorem replUuidGo_noSD : ∀ (n : Nat) (l : List Char), noSD l = true → noSD (replUuidGo n l) = true := by
  intro n l
  induction n, l using replUuidGo.induct with
  | case1 _ =>
    intro _
    simp [replUuidGo, noSD]
  | case2 n head rest ih =>
    intro h
    rw [replUuidGo]
    exact ih (noSD_tail h)
  | case3 c rest hg ih =>
    intro h
    rw [replUuidGo, if_pos hg]
    simp only [noSD, headDigit, Bool.and_eq_true, Bool.not_eq_true']
    refine ⟨by decide, by decide, by decide, by decide, by decide, ?_, ih (noSD_tail h)⟩
    simp
  | case4 c rest hg ih =>
    intro h
    rw [replUuidGo, if_neg hg]
    have h2 := noSD_tail h
    simp only [noSD, Bool.and_eq_true, Bool.not_eq_true'] at h
    simp only [noSD, Bool.and_eq_true, Bool.not_eq_true']
    refine ⟨?_, ih h2⟩
    by_cases hc : c = '/'
    · subst hc
      have h1d : headDigit rest = false := by simpa using h.1
      simp [headDigit_replUuidGo h1d]
    · simp [hc]


/-- Idempotence of the two-pass normalization, on character lists. -/
theorem normalize_idem_list (l : List Char) :
    replUuidGo 0 (replNumGo false (replUuidGo 0 (replNumGo false l))) =
      replUuidGo 0 (replNumGo false l) := by
  have h1 : noSD (replNumGo false l) = true := replNumGo_noSD false l
  have h2 : noSD (replUuidGo 0 (replNumGo false l)) = true := replUuidGo_noSD 0 _ h1
  rw [replNumGo_fixed h2]
  exact replUuidGo_fixedU (replUuidGo_noSU 0 _)


/-! ### Claim C10 -/

/-- Claim C10: endpoint normalization is idempotent — a second
application of `normalizeEndpoint` never rewrites the placeholder tokens
(or anything else) introduced by the first. -/
theorem c10_normalize_idempotent (s : String) :
    normalizeEndpoint (normalizeEndpoint s) = normalizeEndpoint s := by
  unfold normalizeEndpoint
  exact congrArg String.mk (normalize_idem_list s.data)

/-- Whether an appended list starts with a digit only depends on the
head of the whole. -/
theorem headDigit_append_pair (A : List Char) {z₁ z₂ : List Char}
    (h : headDigit z₁ = headDigit z₂) : headDigit (A ++ z₁) = headDigit (A ++ z₂) := by
  cases A with
  | nil => simpa using h
  | cons a A' => rfl


/-- In skipping state, an all-digit list is consumed entirely. -/
theorem replNumGo_true_digits : ∀ {d : List Char}, (∀ c ∈ d, c.isDigit = true) →
    replNumGo true d = [] := by
  intro d
  induction d with
  | nil => intro _; rfl
  | cons c rest ih =>
    intro h
    rw [replNumGo, if_pos (by simp [h c (by simp)])]
    exact ih (fun x hx => h x (by simp [hx]))


/-- The numeric pass maps a trailing digit run after a slash to the same
output whatever the run is. -/
theorem replNumGo_digit_pair :
    ∀ (pre : List Char) (s : Bool) {d₁ d₂ : List Char}, d₁ ≠ [] → d₂ ≠ [] →
      (∀ c ∈ d₁, c.isDigit = true) → (∀ c ∈ d₂, c.isDigit = true) →
      replNumGo s (pre ++ '/' :: d₁) = replNumGo s (pre ++ '/' :: d₂) := by
  intro pre
  induction pre with
  | nil =>
    intro s d₁ d₂ hn₁ hn₂ hd₁ hd₂
    have hh₁ : headDigit d₁ = true := by
      cases d₁ with
      | nil => exact absurd rfl hn₁
      | cons c r => simpa [headDigit] using hd₁ c (by simp)
    have hh₂ : headDigit d₂ = true := by
      cases d₂ with
      | nil => exact absurd rfl hn₂
      | cons c r => simpa [headDigit] using hd₂ c (by simp)
    have hsd : ('/').isDigit = false := by decide
    simp only [List.nil_append]
    rw [replNumGo, if_neg (by simp [hsd]), if_pos (by simp [hh₁]), replNumGo_true_digits hd₁]
    rw [replNumGo, if_neg (by simp [hsd]), if_pos (by simp [hh₂]), replNumGo_true_digits hd₂]
  | cons a pre' ih =>
    intro s d₁ d₂ hn₁ hn₂ hd₁ hd₂
    have hhd : headDigit (pre' ++ '/' :: d₁) = headDigit (pre' ++ '/' :: d₂) :=
      headDigit_append_pair pre' rfl
    simp only [List.cons_append]
    rw [replNumGo, replNumGo]
    by_cases h1 : (s && a.isDigit) = true
    · rw [if_pos h1, if_pos h1]
      exact ih true hn₁ hn₂ hd₁ hd₂
    · rw [if_neg h1, if_neg h1]
      by_cases h2 : (a = '/' && headDigit (pre' ++ '/' :: d₁)) = true
      · rw [if_pos h2, if_pos (by rw [← hhd]; exact h2)]
        rw [ih true hn₁ hn₂ hd₁ hd₂]
      · rw [if_neg h2, if_neg (by rw [← hhd]; exact h2)]
        rw [ih false hn₁ hn₂ hd₁ hd₂]


/-- Whether the UUID pattern matches cannot depend on what follows an
intervening slash. -/
theorem matchPat_append_isSome :
    ∀ (a : List Char) (ps : List PatChar) (b₁ b₂ : List Char),
      (matchPat ps (a ++ '/' :: b₁)).isSome = (matchPat ps (a ++ '/' :: b₂)).isSome := by
  intro a
  induction a with
  | nil =>
    intro ps b₁ b₂
    cases ps with
    | nil => rfl
    | cons p ps' =>
      simp only [List.nil_append]
      rw [matchPat_slash_head (by simp), matchPat_slash_head (by simp)]
  | cons x a' ih =>
    intro ps b₁ b₂
    cases ps with
    | nil => rfl
    | cons p ps' =>
      simp only [List.cons_append]
      rw [matchPat, matchPat]
      by_cases hok : patOk p x = true
      · rw [if_pos hok, if_pos hok]
        exact ih ps' b₁ b₂
      · rw [if_neg hok, if_neg hok]


/-- The UUID pattern cannot match across a slash closer than the
pattern length. -/
theorem matchPat_short_slash :
    ∀ (a : List Char) (ps : List PatChar) (b : List Char), a.length < ps.length →
      matchPat ps (a ++ '/' :: b) = none := by
  intro a
  induction a with
  | nil =>
    intro ps b h
    cases ps with
    | nil => simp at h
    | cons p ps' => exact matchPat_slash_head (by simp)
  | cons x a' ih =>
    intro ps b h
    cases ps with
    | nil => simp at h
    | cons p ps' =>
      simp only [List.cons_append]
      rw [matchPat]
      by_cases hok : patOk p x = true
      · rw [if_pos hok]
        exact ih ps' b (by simpa using Nat.lt_of_succ_lt_succ h)
      · rw [if_neg hok]


/-- A successful pattern match consumes exactly the pattern length. -/
theorem matchPat_length :
    ∀ (ps : List PatChar) (l r : List Char), matchPat ps l = some r →
      r.length + ps.length = l.length := by
  intro ps
  induction ps with
  | nil =>
    intro l r h
    rw [matchPat] at h
    cases h
    simp
  | cons p ps' ih =>
    intro l r h
    cases l with
    | nil => exact absurd h (by rw [matchPat]; simp)
    | cons c l' =>
      rw [matchPat] at h
      by_cases hok : patOk p c = true
      · rw [if_pos hok] at h
        have := ih l' r h
        simp only [List.length_cons]
        omega
      · rw [if_neg hok] at h
        cases h


/-- A skip count at least the list length consumes everything. -/
theorem replUuidGo_all_skip :
    ∀ (l : List Char) (n : Nat), l.length ≤ n → replUuidGo n l = [] := by
  intro l
  induction l with
  | nil => intro n _; simp [replUuidGo]
  | cons c rest ih =>
    intro n h
    cases n with
    | zero => simp at h
    | succ m =>
      rw [replUuidGo]
      exact ih m (by simpa using h)


/-- Skipping `n` characters is dropping them. -/
theorem replUuidGo_drop :
    ∀ (l : List Char) (n : Nat), replUuidGo n l = replUuidGo 0 (List.drop n l) := by
  intro l
  induction l with
  | nil => intro n; simp [replUuidGo]
  | cons c rest ih =>
    intro n
    cases n with
    | zero => simp
    | succ m =>
      rw [replUuidGo, List.drop_succ_cons]
      exact ih m


/-- A fully matched list contains no slash. -/
theorem matchPat_no_slash :
    ∀ (ps : List PatChar) (l : List Char), matchPat ps l = some [] → '/' ∉ l := by
  intro ps
  induction ps with
  | nil =>
    intro l h
    rw [matchPat] at h
    cases h
    simp
  | cons p ps' ih =>
    intro l h
    cases l with
    | nil => simp
    | cons c l' =>
      rw [matchPat] at h
      by_cases hok : patOk p c = true
      · rw [if_pos hok] at h
        have hcs : c ≠ '/' := by
          intro hc
          rw [hc, patOk_slash] at hok
          cases hok
        simp only [List.mem_cons]
        push_neg
        exact ⟨fun hc => hcs hc.symm, ih l' h⟩
      · rw [if_neg hok] at h
        cases h


/-- A list without slashes has no `/digit` match. -/
theorem noSD_of_no_slash : ∀ {l : List Char}, '/' ∉ l → noSD l = true := by
  intro l
  induction l with
  | nil => intro _; rfl
  | cons c rest ih =>
    intro h
    simp only [List.mem_cons, not_or] at h
    simp only [noSD, Bool.and_eq_true, Bool.not_eq_true']
    refine ⟨?_, ih h.2⟩
    have hcs : decide (c = '/') = false := by
      simp only [decide_eq_false_iff_not]
      exact fun hc => h.1 hc.symm
    simp [hcs]


/-- The UUID pattern has 36 character classes. -/
theorem uuidPat_length : uuidPat.length = 36 := by decide


/-- The UUID pass rewrites a slash followed by exactly a canonical UUID
to the placeholder. -/
theorem uuid_pair_nil {u : List Char} (h : matchPat uuidPat u = some []) :
    replUuidGo 0 ('/' :: u) = ['/', ':', 'u', 'u', 'i', 'd'] := by
  have hlen : u.length = 36 := by
    have := matchPat_length uuidPat u [] h
    rw [uuidPat_length] at this
    simpa using this.symm
  rw [replUuidGo, if_pos (by simp [h])]
  rw [replUuidGo_all_skip u 36 (by omega)]


/-- The UUID pass maps a trailing canonical UUID after a slash to the
same output whatever the UUID is (fuelled induction on the prefix). -/
theorem uuid_pair_fuel :
    ∀ (N : Nat) (X : List Char) {u₁ u₂ : List Char}, X.length ≤ N →
      matchPat uuidPat u₁ = some [] → matchPat uuidPat u₂ = some [] →
      replUuidGo 0 (X ++ '/' :: u₁) = replUuidGo 0 (X ++ '/' :: u₂) := by
  intro N
  induction N with
  | zero =>
    intro X u₁ u₂ hX h₁ h₂
    have : X = [] := List.length_eq_zero.mp (Nat.le_zero.mp hX)
    subst this
    simp only [List.nil_append]
    rw [uuid_pair_nil h₁, uuid_pair_nil h₂]
  | succ N ih =>
    intro X u₁ u₂ hX h₁ h₂
    cases X with
    | nil =>
      simp only [List.nil_append]
      rw [uuid_pair_nil h₁, uuid_pair_nil h₂]
    | cons c X' =>
      have hX' : X'.length ≤ N := by simpa using hX
      have hiso :
          (matchPat uuidPat (X' ++ '/' :: u₁)).isSome =
            (matchPat uuidPat (X' ++ '/' :: u₂)).isSome :=
        matchPat_append_isSome X' uuidPat u₁ u₂
      simp only [List.cons_append]
      rw [replUuidGo, replUuidGo]
      by_cases hg : (c = '/' && (matchPat uuidPat (X' ++ '/' :: u₁)).isSome) = true
      · rw [if_pos hg, if_pos (by rw [← hiso]; exact hg)]
        have hsome : (matchPat uuidPat (X' ++ '/' :: u₁)).isSome = true := by
          simp only [Bool.and_eq_true] at hg
          exact hg.2
        have h36 : 36 ≤ X'.length := by
          by_contra hlt
          push_neg at hlt
          rw [matchPat_short_slash X' uuidPat u₁ (by rw [uuidPat_length]; omega)] at hsome
          simp at hsome
        rw [replUuidGo_drop, replUuidGo_drop (X' ++ '/' :: u₂),
          List.drop_append_of_le_length h36, List.drop_append_of_le_length h36]
        have hdrop : (List.drop 36 X').length ≤ N := by
          simp only [List.length_drop]
          omega
        rw [ih (List.drop 36 X') hdrop h₁ h₂]
      · rw [if_neg hg, if_neg (by rw [← hiso]; exact hg)]
        rw [ih X' hX' h₁ h₂]


/-- The numeric pass leaves a slash-free, non-digit-leading tail after a
slash untouched. -/
theorem replNumGo_split_slash :
    ∀ (A : List Char) (s : Bool) {u : List Char}, noSD u = true → headDigit u = false →
      replNumGo s (A ++ '/' :: u) = replNumGo s (A ++ ['/']) ++ u := by
  intro A
  induction A with
  | nil =>
    intro s u hsd hhd
    have hdig : ('/').isDigit = false := by decide
    simp only [List.nil_append]
    rw [replNumGo, if_neg (by simp [hdig]), if_neg (by simp [hhd]), replNumGo_fixed hsd]
    rw [replNumGo, if_neg (by simp [hdig]), if_neg (by simp [headDigit])]
    rfl
  | cons a A' ih =>
    intro s u hsd hhd
    have hhda : headDigit (A' ++ '/' :: u) = headDigit (A' ++ ['/']) :=
      headDigit_append_pair A' rfl
    simp only [List.cons_append]
    rw [replNumGo]
    conv_rhs => rw [replNumGo]
    by_cases h1 : (s && a.isDigit) = true
    · rw [if_pos h1, if_pos h1]
      exact ih true hsd hhd
    · rw [if_neg h1, if_neg h1]
      by_cases h2 : (a = '/' && headDigit (A' ++ '/' :: u)) = true
      · rw [if_pos h2, if_pos (by rw [← hhda]; exact h2)]
        rw [ih true hsd hhd]
        rfl
      · rw [if_neg h2, if_neg (by rw [← hhda]; exact h2)]
        rw [ih false hsd hhd]
        rfl


/-- The numeric pass of a list ending in a slash ends in a slash. -/
theorem replNumGo_ends_slash :
    ∀ (A : List Char) (s : Bool), ∃ X, replNumGo s (A ++ ['/']) = X ++ ['/'] := by
  intro A
  induction A with
  | nil =>
    intro s
    refine ⟨[], ?_⟩
    have hdig : ('/').isDigit = false := by decide
    rw [List.nil_append, replNumGo, if_neg (by simp [hdig]), if_neg (by simp [headDigit])]
    rfl
  | cons a A' ih =>
    intro s
    simp only [List.cons_append]
    rw [replNumGo]
    by_cases h1 : (s && a.isDigit) = true
    · rw [if_pos h1]
      exact ih true
    · rw [if_neg h1]
      by_cases h2 : (a = '/' && headDigit (A' ++ ['/'])) = true
      · rw [if_pos h2]
        obtain ⟨X, hX⟩ := ih true
        exact ⟨'/' :: ':' :: 'i' :: 'd' :: X, by rw [hX]; simp⟩
      · rw [if_neg h2]
        obtain ⟨X, hX⟩ := ih false
        exact ⟨a :: X, by rw [hX]; simp⟩


/-- Both passes together map a trailing canonical, non-digit-leading
UUID after a slash to the same output whatever the UUID is. -/
theorem uuid_norm_pair {P u₁ u₂ : List Char}
    (h₁ : matchPat uuidPat u₁ = some []) (hh₁ : headDigit u₁ = false)
    (h₂ : matchPat uuidPat u₂ = some []) (hh₂ : headDigit u₂ = false) :
    replUuidGo 0 (replNumGo false (P ++ '/' :: u₁)) =
      replUuidGo 0 (replNumGo false (P ++ '/' :: u₂)) := by
  have hsd₁ : noSD u₁ = true := noSD_of_no_slash (matchPat_no_slash uuidPat u₁ h₁)
  have hsd₂ : noSD u₂ = true := noSD_of_no_slash (matchPat_no_slash uuidPat u₂ h₂)
  rw [replNumGo_split_slash P false hsd₁ hh₁, replNumGo_split_slash P false hsd₂ hh₂]
  obtain ⟨X, hX⟩ := replNumGo_ends_slash P false
  rw [hX]
  have hassoc : ∀ (u : List Char), (X ++ ['/']) ++ u = X ++ '/' :: u := by
    intro u
    simp
  rw [hassoc u₁, hassoc u₂]
  exact uuid_pair_fuel X.length X (by omega) h₁ h₂


/-! ### Claim C2: amended theorem -/

/-- Claim C2 (amended): normalization replaces every maximal digit run
immediately following a slash with the `:id` placeholder (even when the
run only begins a segment), and every canonical lowercase UUID
immediately following a slash with the `:uuid` placeholder provided the
UUID does not begin with a digit (a digit-leading UUID has its leading
digit run rewritten by the numeric pass first); consequently two paths
differing only in such a trailing digit run normalize — and fingerprint —
identically, and two paths differing only in such a trailing
non-digit-leading canonical UUID normalize identically. -/
theorem c2_amended :
    (∀ (pre d₁ d₂ : List Char), d₁ ≠ [] → d₂ ≠ [] →
       (∀ c ∈ d₁, c.isDigit = true) → (∀ c ∈ d₂, c.isDigit = true) →
       normalizeEndpoint (String.mk (pre ++ '/' :: d₁)) =
         normalizeEndpoint (String.mk (pre ++ '/' :: d₂))) ∧
    (∀ (P u₁ u₂ : List Char),
       matchPat uuidPat u₁ = some [] → headDigit u₁ = false →
       matchPat uuidPat u₂ = some [] → headDigit u₂ = false →
       normalizeEndpoint (String.mk (P ++ '/' :: u₁)) =
         normalizeEndpoint (String.mk (P ++ '/' :: u₂))) ∧
    (∀ (e₁ e₂ : LogEntry), e₁.BugID = "" → e₂.BugID = "" →
       e₁.Method = e₂.Method → e₁.Status = e₂.Status →
       e₁.Source.Function = e₂.Source.Function →
       normalizeEndpoint e₁.Action = normalizeEndpoint e₂.Action →
       GenerateBugID e₁ = GenerateBugID e₂) := by
  refine ⟨?_, ?_, ?_⟩
  · intro pre d₁ d₂ hn₁ hn₂ hd₁ hd₂
    unfold normalizeEndpoint
    exact congrArg String.mk
      (congrArg (replUuidGo 0) (replNumGo_digit_pair pre false hn₁ hn₂ hd₁ hd₂))
  · intro P u₁ u₂ h₁ hh₁ h₂ hh₂
    unfold normalizeEndpoint
    exact congrArg String.mk (uuid_norm_pair h₁ hh₁ h₂ hh₂)
  · intro e₁ e₂ hb₁ hb₂ hm hs hf hn
    unfold GenerateBugID
    rw [if_neg (by simp [hb₁]), if_neg (by simp [hb₂])]
    rw [hm, hs, hf, hn]

/-- Witness for the amended claim C2 at concrete inputs: numeric-segment
collapse, UUID-segment collapse, and the fingerprint consequence. -/
theorem c2_amended_witness :
    normalizeEndpoint "/api/v1/coffee/123" = normalizeEndpoint "/api/v1/coffee/456" ∧
    normalizeEndpoint "/user/deadbeef-dead-beef-dead-beefdeadbeef" =
      normalizeEndpoint "/user/feedface-feed-face-feed-facefeedface" ∧
    GenerateBugID
        { Method := "PUT", Action := "/api/v1/coffee/123", Status := 500,
          Source := ⟨"f", "", 0⟩ : LogEntry } =
      GenerateBugID
        { Method := "PUT", Action := "/api/v1/coffee/456", Status := 500,
          Source := ⟨"f", "", 0⟩ : LogEntry } := by
  refine ⟨?_, ?_, ?_⟩
  · have h := c2_amended.1 "/api/v1/coffee".data "123".data "456".data
      (by decide) (by decide) (by decide) (by decide)
    have e1 : String.mk ("/api/v1/coffee".data ++ '/' :: "123".data) = "/api/v1/coffee/123" := by
      decide
    have e2 : String.mk ("/api/v1/coffee".data ++ '/' :: "456".data) = "/api/v1/coffee/456" := by
      decide
    rw [e1, e2] at h
    exact h
  · have h := c2_amended.2.1 "/user".data "deadbeef-dead-beef-dead-beefdeadbeef".data
      "feedface-feed-face-feed-facefeedface".data (by decide) (by decide) (by decide) (by decide)
    have e1 : String.mk ("/user".data ++ '/' :: "deadbeef-dead-beef-dead-beefdeadbeef".data) =
        "/user/deadbeef-dead-beef-dead-beefdeadbeef" := by decide
    have e2 : String.mk ("/user".data ++ '/' :: "feedface-feed-face-feed-facefeedface".data) =
        "/user/feedface-feed-face-feed-facefeedface" := by decide
    rw [e1, e2] at h
    exact h
  · exact c2_amended.2.2 _ _ rfl rfl rfl rfl rfl (by decide)

/-! ### Claim C3 -/

/-- Each SHA-256 compression round preserves the state length. -/
theorem shaStep_length (st : List Nat) (kw : Nat × Nat) : (shaStep st kw).length = st.length := by
  unfold shaStep
  split
  · simp_all
  · rfl

/-- The whole compression fold preserves the state length. -/
theorem foldl_shaStep_length (l : List (Nat × Nat)) :
    ∀ (st : List Nat), (l.foldl shaStep st).length = st.length := by
  induction l with
  | nil => intro st; rfl
  | cons kw l' ih =>
    intro st
    rw [List.foldl_cons, ih, shaStep_length]

/-- Chunk processing preserves the hash-state length. -/
theorem shaChunk_length (hs chunk : List Nat) : (shaChunk hs chunk).length = hs.length := by
  unfold shaChunk
  simp [foldl_shaStep_length]

/-- The fold of chunk processing preserves the hash-state length. -/
theorem foldl_shaChunk_length (cs : List (List Nat)) :
    ∀ (hs : List Nat), (cs.foldl shaChunk hs).length = hs.length := by
  induction cs with
  | nil => intro hs; rfl
  | cons c cs' ih =>
    intro hs
    rw [List.foldl_cons, ih, shaChunk_length]

/-- Fixed-width byte decomposition has the requested width. -/
theorem toBytesBE_length (n v : Nat) : (toBytesBE n v).length = n := by
  induction n generalizing v with
  | zero => rfl
  | succ m ih => simp [toBytesBE, ih]

/-- Flattening lists of a constant length multiplies the length. -/
theorem flatten_length_const {α : Type} (k : Nat) :
    ∀ (L : List (List α)), (∀ x ∈ L, x.length = k) → L.flatten.length = k * L.length := by
  intro L
  induction L with
  | nil => intro _; simp
  | cons x L' ih =>
    intro h
    simp only [List.flatten_cons, List.length_append, List.length_cons]
    rw [h x (by simp), ih (fun y hy => h y (by simp [hy]))]
    ring

/-- A SHA-256 digest is 32 bytes long. -/
theorem sha256_length (msg : List Nat) : (sha256 msg).length = 32 := by
  unfold sha256
  rw [flatten_length_const 4 _ (by
    intro x hx
    simp only [List.mem_map] at hx
    obtain ⟨w, _, hw⟩ := hx
    rw [← hw, toBytesBE_length])]
  simp [foldl_shaChunk_length, shaH0]

/-- Claim C3: a non-empty explicit bug identifier is returned verbatim,
regardless of all other fields; otherwise the fingerprint is the SHA-256
digest of `method|normalizedEndpoint|status|sourceFunction`, truncated
to its first 8 bytes and rendered as 16 lowercase hex characters (the
second conjunct: the rendering of any such digest has exactly 16
characters). -/
theorem c3_fingerprint :
    (∀ e : LogEntry,
      GenerateBugID e =
        if e.BugID = "" then
          hexEncode ((sha256 (utf8Bytes (e.Method ++ "|" ++ normalizeEndpoint e.Action ++ "|" ++
            toString e.Status ++ "|" ++ e.Source.Function))).take 8)
        else e.BugID) ∧
    (∀ s : String, (hexEncode ((sha256 (utf8Bytes s)).take 8)).length = 16) := by
  constructor
  · intro e
    unfold GenerateBugID
    by_cases h : e.BugID = ""
    · rw [if_neg (by simp [h]), if_pos h]
    · rw [if_pos h, if_neg h]
  · intro s
    have htake : ((sha256 (utf8Bytes s)).take 8).length = 8 := by
      simp [List.length_take, sha256_length]
    unfold hexEncode
    rw [String.length]
    rw [flatten_length_const 2 _ (by
      intro x hx
      simp only [List.mem_map] at hx
      obtain ⟨b, _, hb⟩ := hx
      rw [← hb]
      rfl)]
    rw [List.length_map, htake]

/-! ### Claim C7 -/

/-- Claim C7: in every poll cycle the watermark is advanced to the
query's end time iff the log-source query succeeds — a failure leaves it
unchanged (so the next cycle re-queries from the same start time), and a
success advances it even when the query returns zero entries. -/
theorem c7_watermark (st : PollState) (now : Int) (q : Except String (List LogEntry))
    (f : Nat → TrackerOracle) (ns : List NotifOracle) :
    (poll st now q f ns).1.lastPoll =
      match q with
      | .ok _ => now
      | .error _ => st.lastPoll := by
  cases q <;> rfl

/-! ### Lifecycle engine helper lemmas -/

/-- Counting over a constant-`false` mapped notifier list gives zero. -/
theorem countP_map_false {α β : Type} (p : β → Bool) (f : α → β) (l : List α)
    (h : ∀ a, p (f a) = false) : (l.map f).countP p = 0 := by
  induction l with
  | nil => rfl
  | cons x l' ih =>
    rw [List.map_cons, List.countP_cons, ih]
    simp [h x]

/-- Counting over a constant-`true` mapped notifier list gives the
length. -/
theorem countP_map_true {α β : Type} (p : β → Bool) (f : α → β) (l : List α)
    (h : ∀ a, p (f a) = true) : (l.map f).countP p = l.length := by
  induction l with
  | nil => rfl
  | cons x l' ih =>
    rw [List.map_cons, List.countP_cons, ih]
    simp [h x]

/-- A `bugid:`-prefixed label is never a severity label. -/
theorem bugid_not_severity (x : String) : isSeverityLabel ("bugid:" ++ x) = false := by
  unfold isSeverityLabel
  have h1 : ("bugid:" ++ x = "severity:critical") = False := by
    simp only [eq_iff_iff, iff_false]
    intro h
    have hd := congrArg String.data h
    obtain ⟨d⟩ := x
    simp [String.data] at hd
  have h2 : ("bugid:" ++ x = "severity:error") = False := by
    simp only [eq_iff_iff, iff_false]
    intro h
    have hd := congrArg String.data h
    obtain ⟨d⟩ := x
    simp [String.data] at hd
  simp [h1, h2]

/-! ### Claim C4 -/

/-- Claim C4: when the fingerprint-label search returns one or more
issues, the engine takes the first returned issue as authoritative
(whatever issues follow it), computes the occurrence number as that
issue's comment count plus 2, makes exactly one add-comment call
carrying that number — whatever the issue's state and the reopen
outcome — and, when the first issue is open and the comment call
succeeds, yields `Updated` with that occurrence number and zero reopen
calls. -/
theorem c4_recurrence (el : Except String Unit) (cr : Except String Issue)
    (rr : Except String Unit) (ns : List NotifOracle) (entry : LogEntry)
    (num : Int) (title state : String) (comments : Int) (rest : List Issue) :
    (processEntry ⟨.ok (⟨num, title, "open", comments⟩ :: rest), el, cr, .ok (), rr⟩ ns entry =
      (.ok (.Updated num (comments + 2)),
       [.searchIssues ("bugid:" ++ GenerateBugID entry),
        .addComment num (generateComment entry (comments + 2))])) ∧
    ((processEntry ⟨.ok (⟨num, title, state, comments⟩ :: rest), el, cr, .ok (), rr⟩
        ns entry).2.countP Call.isAddComment = 1) ∧
    (Call.addComment num (generateComment entry (comments + 2)) ∈
      (processEntry ⟨.ok (⟨num, title, state, comments⟩ :: rest), el, cr, .ok (), rr⟩
        ns entry).2) ∧
    ((processEntry ⟨.ok (⟨num, title, "open", comments⟩ :: rest), el, cr, .ok (), rr⟩
        ns entry).2.countP Call.isReopen = 0) := by
  refine ⟨rfl, ?_, ?_, rfl⟩
  · show (processEntry _ _ _).2.countP Call.isAddComment = 1
    unfold processEntry updateExistingIssue
    by_cases hst : state = "closed"
    · simp only [hst]
      cases rr with
      | error msg =>
        simp [List.countP_cons, Call.isAddComment]
      | ok u =>
        simp [List.countP_append, List.countP_cons, List.countP_map, Function.comp,
          Call.isAddComment]
    · simp only []
      rw [if_neg (by simp [hst])]
      simp [List.countP_cons, Call.isAddComment]
  · show Call.addComment num (generateComment entry (comments + 2)) ∈ (processEntry _ _ _).2
    unfold processEntry updateExistingIssue
    by_cases hst : state = "closed"
    · simp only [hst]
      cases rr with
      | error msg => simp
      | ok u => simp
    · simp only []
      rw [if_neg (by simp [hst])]
      simp

/-! ### Claim C5 -/

/-- Claim C5: when the authoritative existing issue is closed and the
comment call succeeds, the engine makes exactly one reopen call, placed
after the add-comment call; the overall result is a success whatever the
reopen outcome (a reopen failure only downgrades the outcome to
`Updated`); and the reopened notification, carrying the updated
occurrence count, is emitted to each notifier exactly when the reopen
call succeeds. -/
theorem c5_reopen (el : Except String Unit) (cr : Except String Issue)
    (ns : List NotifOracle) (entry : LogEntry)
    (num : Int) (title : String) (comments : Int) (rest : List Issue)
    (rr : Except String Unit) :
    (processEntry ⟨.ok (⟨num, title, "closed", comments⟩ :: rest), el, cr, .ok (), rr⟩ ns entry =
      match rr with
      | .ok _ =>
        (.ok (.Reopened num (comments + 2)),
         [.searchIssues ("bugid:" ++ GenerateBugID entry),
          .addComment num (generateComment entry (comments + 2)),
          .reopenIssue num]
           ++ ns.map (fun _ => Call.notifyReopened
               { Number := num, Title := title, Occurrences := comments + 2 }))
      | .error _ =>
        (.ok (.Updated num (comments + 2)),
         [.searchIssues ("bugid:" ++ GenerateBugID entry),
          .addComment num (generateComment entry (comments + 2)),
          .reopenIssue num])) ∧
    ((processEntry ⟨.ok (⟨num, title, "closed", comments⟩ :: rest), el, cr, .ok (), rr⟩
        ns entry).2.countP Call.isReopen = 1) ∧
    ((processEntry ⟨.ok (⟨num, title, "closed", comments⟩ :: rest), el, cr, .ok (), rr⟩
        ns entry).2.countP Call.isAddComment = 1) ∧
    ((processEntry ⟨.ok (⟨num, title, "closed", comments⟩ :: rest), el, cr, .ok (), rr⟩
        ns entry).2.countP Call.isNotifyReopened =
      match rr with
      | .ok _ => ns.length
      | .error _ => 0) ∧
    ((processEntry ⟨.ok (⟨num, title, "closed", comments⟩ :: rest), el, cr, .ok (), rr⟩
        ns entry).1.isOk = true) := by
  cases rr with
  | ok u =>
    refine ⟨rfl, ?_, ?_, ?_, rfl⟩
    · unfold processEntry updateExistingIssue
      simp [List.countP_append, List.countP_cons, List.countP_map, Function.comp,
        Call.isReopen]
    · unfold processEntry updateExistingIssue
      simp [List.countP_append, List.countP_cons, List.countP_map, Function.comp,
        Call.isAddComment]
    · unfold processEntry updateExistingIssue
      simp [List.countP_append, List.countP_cons, List.countP_map, Function.comp,
        List.countP_replicate, Call.isNotifyReopened]
  | error m =>
    refine ⟨rfl, ?_, ?_, ?_, rfl⟩
    · unfold processEntry updateExistingIssue
      simp [List.countP_cons, Call.isReopen]
    · unfold processEntry updateExistingIssue
      simp [List.countP_cons, Call.isAddComment]
    · unfold processEntry updateExistingIssue
      simp [List.countP_cons, Call.isNotifyReopened]

/-! ### Claim C6 -/

/-- Claim C6: when the fingerprint-label search returns zero issues and
the create call succeeds, the engine makes exactly one create-issue
call, whose label set contains the `auto-generated` marker, the
fingerprint label `bugid:<fp>`, and exactly one severity label, chosen
as `severity:critical` when the status code is at least 500 and
`severity:error` otherwise, and yields `Created`. -/
theorem c6_create (el : Except String Unit) (ac rr : Except String Unit)
    (ns : List NotifOracle) (entry : LogEntry)
    (inum : Int) (ititle istate : String) (icomments : Int) :
    (processEntry ⟨.ok [], el, .ok ⟨inum, ititle, istate, icomments⟩, ac, rr⟩ ns entry =
      (.ok (.Created inum),
       [.searchIssues ("bugid:" ++ GenerateBugID entry),
        .ensureLabel ("bugid:" ++ GenerateBugID entry) "0366d6",
        .createIssue (generateTitle entry) (generateBody entry (GenerateBugID entry))
          (["auto-generated", "bugid:" ++ GenerateBugID entry]
            ++ (if 500 ≤ entry.Status then ["severity:critical"] else ["severity:error"]))]
         ++ ns.map (fun _ => Call.notifyNew
             { Number := inum, Title := generateTitle entry, BugID := GenerateBugID entry,
               Endpoint := entry.Action, HTTPMethod := entry.Method,
               StatusCode := entry.Status, FirstSeen := entry.Timestamp }))) ∧
    ((processEntry ⟨.ok [], el, .ok ⟨inum, ititle, istate, icomments⟩, ac, rr⟩
        ns entry).2.countP Call.isCreate = 1) ∧
    ("auto-generated" ∈
      (["auto-generated", "bugid:" ++ GenerateBugID entry]
        ++ (if 500 ≤ entry.Status then ["severity:critical"] else ["severity:error"]))) ∧
    (("bugid:" ++ GenerateBugID entry) ∈
      (["auto-generated", "bugid:" ++ GenerateBugID entry]
        ++ (if 500 ≤ entry.Status then ["severity:critical"] else ["severity:error"]))) ∧
    ((if 500 ≤ entry.Status then "severity:critical" else "severity:error") ∈
      (["auto-generated", "bugid:" ++ GenerateBugID entry]
        ++ (if 500 ≤ entry.Status then ["severity:critical"] else ["severity:error"]))) ∧
    ((["auto-generated", "bugid:" ++ GenerateBugID entry]
        ++ (if 500 ≤ entry.Status then ["severity:critical"] else ["severity:error"])).countP
      isSeverityLabel = 1) := by
  refine ⟨rfl, ?_, by simp, by simp, by split <;> simp, ?_⟩
  · unfold processEntry createNewIssue
    simp [List.countP_append, List.countP_cons, List.countP_map, Function.comp,
      List.countP_replicate, Call.isCreate]
  · have hag : isSeverityLabel "auto-generated" = false := by decide
    have hsc : isSeverityLabel "severity:critical" = true := by decide
    have hse : isSeverityLabel "severity:error" = true := by decide
    split <;>
      simp [List.countP_append, List.countP_cons, hag, hsc, hse,
        bugid_not_severity (GenerateBugID entry)]

/-! ### Claim C8 -/

/-- Claim C8 counterexample: with the ensure-label tracker call failing
and everything else succeeding, processing an entry still succeeds with
`Created` — the ensure-label failure is only logged, not reported as a
failure of that entry, contradicting the claim that a failure of any of
the tracker calls made while processing the entry (search, ensure-label,
create, comment) aborts it and is reported as a failure. -/
theorem c8_counterexample :
    (processEntry ⟨.ok [], .error "label api down", .ok ⟨7, "", "open", 0⟩, .ok (), .ok ()⟩
      [] { Level := "ERROR" }).1 = .ok (.Created 7) := rfl

/-- Claim C8 (amended): a failure of the search, create-issue, or
add-comment tracker call aborts processing of that one entry and is
reported as a failure to the caller, with no further collaborator calls
for that entry (an ensure-label failure, by contrast, is only logged);
and the batch loop processes the remaining entries regardless of
earlier entries' outcomes (the trace and result of each qualifying entry
depend only on its own oracle). -/
theorem c8_amended :
    (∀ (msg : String) (el : Except String Unit) (cr : Except String Issue)
       (ac rr : Except String Unit) (ns : List NotifOracle) (e : LogEntry),
      processEntry ⟨.error msg, el, cr, ac, rr⟩ ns e =
        (.error ("failed to search issues: " ++ msg),
         [.searchIssues ("bugid:" ++ GenerateBugID e)])) ∧
    (∀ (msg : String) (el ac rr : Except String Unit) (ns : List NotifOracle) (e : LogEntry),
      processEntry ⟨.ok [], el, .error msg, ac, rr⟩ ns e =
        (.error ("failed to create issue: " ++ msg),
         [.searchIssues ("bugid:" ++ GenerateBugID e),
          .ensureLabel ("bugid:" ++ GenerateBugID e) "0366d6",
          .createIssue (generateTitle e) (generateBody e (GenerateBugID e))
            (["auto-generated", "bugid:" ++ GenerateBugID e]
              ++ (if 500 ≤ e.Status then ["severity:critical"] else ["severity:error"]))])) ∧
    (∀ (msg : String) (el : Except String Unit) (cr : Except String Issue)
       (rr : Except String Unit) (ns : List NotifOracle) (e : LogEntry)
       (num : Int) (t st : String) (cm : Int) (rest : List Issue),
      processEntry ⟨.ok (⟨num, t, st, cm⟩ :: rest), el, cr, .error msg, rr⟩ ns e =
        (.error ("failed to add comment: " ++ msg),
         [.searchIssues ("bugid:" ++ GenerateBugID e),
          .addComment num (generateComment e (cm + 2))])) ∧
    (∀ (f : Nat → TrackerOracle) (ns : List NotifOracle) (i : Nat)
       (es₁ es₂ : List LogEntry),
      processBatch f ns i (es₁ ++ es₂) =
        processBatch f ns i es₁
          ++ processBatch f ns (i + es₁.countP (fun e => e.IsError)) es₂) := by
  refine ⟨fun _ _ _ _ _ _ _ => rfl, fun _ _ _ _ _ _ => rfl,
    fun _ _ _ _ _ _ _ _ _ _ _ => rfl, ?_⟩
  have hnil : ∀ (f : Nat → TrackerOracle) (ns : List NotifOracle) (i : Nat),
      processBatch f ns i [] = [] := fun _ _ _ => rfl
  have hcons : ∀ (f : Nat → TrackerOracle) (ns : List NotifOracle) (i : Nat)
      (e : LogEntry) (rest : List LogEntry),
      processBatch f ns i (e :: rest) =
        if e.IsError then processEntry (f i) ns e :: processBatch f ns (i+1) rest
        else processBatch f ns i rest := fun _ _ _ _ _ => rfl
  intro f ns i es₁ es₂
  induction es₁ generalizing i with
  | nil => simp [hnil]
  | cons e es₁' ih =>
    by_cases he : e.IsError = true
    · rw [List.cons_append, hcons, if_pos he, hcons, if_pos he, ih (i+1), List.countP_cons,
        List.cons_append]
      have h1 : i + (es₁'.countP (fun e => e.IsError) + if e.IsError = true then 1 else 0) =
          i + 1 + es₁'.countP (fun e => e.IsError) := by
        rw [if_pos he]
        omega
      rw [h1]
    · rw [List.cons_append, hcons, if_neg he, hcons, if_neg he, ih i, List.countP_cons]
      have h1 : i + (es₁'.countP (fun e => e.IsError) + if e.IsError = true then 1 else 0) =
          i + es₁'.countP (fun e => e.IsError) := by
        rw [if_neg he]
        omega
      rw [h1]


/-! ### Claim C9 -/

/-- Claim C9 counterexample: for the entry with method `GET`, endpoint
`/coffee/123` and status 500, the rendered title contains the
*normalized* endpoint `/coffee/:id`, not the raw `/coffee/123`; the
claim states that the title uses the raw, un-normalized endpoint. -/
theorem c9_counterexample :
    generateTitle { Method := "GET", Action := "/coffee/123", Status := 500 } =
      "[500] - GET /coffee/:id" ∧
    ({ Method := "GET", Action := "/coffee/123", Status := 500 : LogEntry }).Action =
      "/coffee/123" := by
  constructor
  · decide
  · rfl

/-- Claim C9 (amended): endpoint normalization is applied when
generating the fingerprint *and* when rendering the title (whose
method-endpoint part uses the normalized endpoint), while the rendered
body's endpoint line uses the entry's raw, un-normalized endpoint
string. -/
theorem c9_amended :
    (∀ e : LogEntry, e.Method ≠ "" → e.Action ≠ "" →
      ∃ a b : String,
        generateTitle e = a ++ (e.Method ++ " " ++ normalizeEndpoint e.Action) ++ b) ∧
    (∀ (e : LogEntry) (bugID : String), e.Action ≠ "" →
      ∃ a b : String,
        generateBody e bugID = a ++ ("- **Endpoint:** " ++ e.Action ++ "\n") ++ b) := by
  constructor
  · intro e hm hA
    by_cases c1 : 500 ≤ e.Status
    · by_cases c3 : e.Message ≠ "" ∧ e.Message.utf8ByteSize < 80
      · refine ⟨"[" ++ toString e.Status ++ "]" ++ " - ", " - " ++ e.Message, ?_⟩
        simp [generateTitle, c1, c3, hm, hA, goJoin, String.append_assoc]
      · refine ⟨"[" ++ toString e.Status ++ "]" ++ " - ", "", ?_⟩
        simp [generateTitle, c1, c3, hm, hA, goJoin, String.append_assoc]
    · by_cases c2 : e.Level ≠ ""
      · by_cases c3 : e.Message ≠ "" ∧ e.Message.utf8ByteSize < 80
        · refine ⟨"[" ++ e.Level.toUpper ++ "]" ++ " - ", " - " ++ e.Message, ?_⟩
          simp [generateTitle, c1, c2, c3, hm, hA, goJoin, String.append_assoc]
        · refine ⟨"[" ++ e.Level.toUpper ++ "]" ++ " - ", "", ?_⟩
          simp [generateTitle, c1, c2, c3, hm, hA, goJoin, String.append_assoc]
      · by_cases c3 : e.Message ≠ "" ∧ e.Message.utf8ByteSize < 80
        · refine ⟨"", " - " ++ e.Message, ?_⟩
          simp [generateTitle, c1, c2, c3, hm, hA, goJoin, String.append_assoc]
        · refine ⟨"", "", ?_⟩
          simp [generateTitle, c1, c2, c3, hm, hA, goJoin, String.append_assoc]
  · intro e bugID hA
    refine ⟨"## Error Details\n\n"
      ++ (if e.Message ≠ "" then "**Message:** " ++ e.Message ++ "\n\n" else "")
      ++ (if e.Source.Function ≠ "" then "**Source:** `" ++ e.Source.Function ++ "`\n" else "")
      ++ (if e.Source.File ≠ "" then
            "**File:** `" ++ e.Source.File ++ ":" ++ toString e.Source.Line ++ "`\n"
          else "")
      ++ "\n## Request Info\n\n"
      ++ (if e.Method ≠ "" then "- **Method:** " ++ e.Method ++ "\n" else ""),
      (if 0 < e.Status then "- **Status Code:** " ++ toString e.Status ++ "\n" else "")
      ++ (if e.RequestID ≠ "" then "- **Request ID:** `" ++ e.RequestID ++ "`\n" else "")
      ++ (if e.TraceID ≠ "" then "- **Trace ID:** `" ++ e.TraceID ++ "`\n" else "")
      ++ (if e.UserID ≠ "" then "- **User ID:** " ++ e.UserID ++ "\n" else "")
      ++ "\n## Sample Log\n\n```json\n"
      ++ jsonRender 0 (.obj e.Parsed)
      ++ "\n```\n"
      ++ "\n---\n"
      ++ "*Bug ID: `" ++ bugID ++ "`*\n"
      ++ "*Auto-generated by issue-tracker*\n", ?_⟩
    simp [generateBody, hA, String.append_assoc]

/-- Witness for the amended claim C9 at a concrete entry: the title
contains the normalized endpoint, the body line the raw one. -/
theorem c9_amended_witness :
    (∃ a b : String,
      generateTitle { Method := "GET", Action := "/coffee/123", Status := 500 } =
        a ++ ("GET" ++ " " ++ normalizeEndpoint "/coffee/123") ++ b) ∧
    (∃ a b : String,
      generateBody { Method := "GET", Action := "/coffee/123", Status := 500 } "fp0" =
        a ++ ("- **Endpoint:** " ++ "/coffee/123" ++ "\n") ++ b) :=
  ⟨c9_amended.1 _ (by decide) (by decide), c9_amended.2 _ "fp0" (by decide)⟩
